import Mathlib

/-!
Verification of the go-license library (package `license`).

Texts, file names and error messages are modelled as lists of Unicode code
points (`List Nat`); a Lean string literal `s` is injected via `str s`.
Go errors are modelled by their message strings.  The case-mapping functions
model Go's `strings.ToLower` / `strings.ToUpper` on the ASCII letters, the
alphabet actually exercised by the license signatures.
-/

namespace GoLicense

/-- A text is a sequence of Unicode code points. -/
abbrev Str := List Nat

/-- Inject a Lean string literal as a sequence of code points. -/
def str (s : String) : Str := s.data.map Char.toNat

/-- Go `strings.ToLower`, ASCII fragment: maps codes 65-90 to 97-122. -/
def goToLower (c : Nat) : Nat := if 65 ≤ c ∧ c ≤ 90 then c + 32 else c

/-- Go `strings.ToUpper`, ASCII fragment: maps codes 97-122 to 65-90. -/
def goToUpper (c : Nat) : Nat := if 97 ≤ c ∧ c ≤ 122 then c - 32 else c

/-- Lowercase an entire text (`strings.ToLower(l.Text)`, license.go line 223). -/
def toLowerStr (s : Str) : Str := s.map goToLower

/-- Go regexp `\s`: tab 9, newline 10, form feed 12, carriage return 13, space 32. -/
def isSpace (c : Nat) : Bool := c = 9 || c = 10 || c = 12 || c = 13 || c = 32

/-- The effect of `newlineRegexp.ReplaceAllLiteralString(comp, " ")` with pattern
`(\r\n|\n)` (license.go lines 219, 230): scanning left to right, a CRLF pair or a
lone LF becomes one space; every other character, including a lone CR, is kept. -/
def replaceNewlines : Str → Str
  | [] => []
  | [c] => if c = 10 then [32] else [c]
  | c :: d :: rest =>
    if c = 13 && d = 10 then 32 :: replaceNewlines rest
    else if c = 10 then 32 :: replaceNewlines (d :: rest)
    else c :: replaceNewlines (d :: rest)

/-- Worker for `collapseSpaces`; `p` is the pending character not yet emitted.
A pending whitespace character followed by another whitespace character merges
into a single pending space. -/
def collapseAux : Nat → Str → Str
  | p, [] => [p]
  | p, c :: rest =>
    if isSpace p && isSpace c then collapseAux 32 rest
    else p :: collapseAux c rest

/-- The effect of `spaceRegexp.ReplaceAllLiteralString(comp, " ")` with pattern
`\s{2,}` (license.go lines 220, 231): every maximal run of two or more
whitespace characters becomes one space; a lone whitespace character is kept. -/
def collapseSpaces : Str → Str
  | [] => []
  | c :: rest => collapseAux c rest

/-- The normalization pipeline of `GuessType` (license.go lines 222-231):
lowercase, newline replacement, whitespace collapsing. -/
def normalizeText (s : Str) : Str := collapseSpaces (replaceNewlines (toLowerStr s))

/-- Helper for substring containment: the first text is an initial segment of
the second. -/
def leadsWith : Str → Str → Bool
  | [], _ => true
  | _ :: _, [] => false
  | p :: ps, t :: ts => p == t && leadsWith ps ts

/-- Go `strings.Contains(text, pat)`: `pat` occurs as a contiguous substring of
`text`. -/
def strContains : Str → Str → Bool
  | [], pat => pat.isEmpty
  | t :: rest, pat => leadsWith pat (t :: rest) || strContains rest pat

/-- `scan` (license.go lines 296-298): literal substring containment,
`strings.Contains(text, match)`. -/
def scan (text pat : Str) : Bool := strContains text pat

/- Recognized license type identifiers (license.go lines 13-26). -/

/-- License type identifier "MIT". -/
def LicenseMIT : Str := str "MIT"

/-- License type identifier "ISC". -/
def LicenseISC : Str := str "ISC"

/-- License type identifier "NewBSD". -/
def LicenseNewBSD : Str := str "NewBSD"

/-- License type identifier "FreeBSD". -/
def LicenseFreeBSD : Str := str "FreeBSD"

/-- License type identifier "Apache-2.0". -/
def LicenseApache20 : Str := str "Apache-2.0"

/-- License type identifier "MPL-2.0". -/
def LicenseMPL20 : Str := str "MPL-2.0"

/-- License type identifier "GPL-2.0". -/
def LicenseGPL20 : Str := str "GPL-2.0"

/-- License type identifier "GPL-3.0". -/
def LicenseGPL30 : Str := str "GPL-3.0"

/-- License type identifier "LGPL-2.1". -/
def LicenseLGPL21 : Str := str "LGPL-2.1"

/-- License type identifier "LGPL-3.0". -/
def LicenseLGPL30 : Str := str "LGPL-3.0"

/-- License type identifier "AGPL-3.0". -/
def LicenseAGPL30 : Str := str "AGPL-3.0"

/-- License type identifier "CDDL-1.0". -/
def LicenseCDDL10 : Str := str "CDDL-1.0"

/-- License type identifier "EPL-1.0". -/
def LicenseEPL10 : Str := str "EPL-1.0"

/-- License type identifier "Unlicense". -/
def LicenseUnlicense : Str := str "Unlicense"

/-- Error message `ErrNoLicenseFile` (license.go line 29). -/
def ErrNoLicenseFile : Str := str "license: unable to find any license file"

/-- Error message `ErrUnrecognizedLicense` (license.go line 30). -/
def ErrUnrecognizedLicense : Str := str "license: could not guess license type"

/-- Error message `ErrMultipleLicenses` (license.go line 31). -/
def ErrMultipleLicenses : Str := str "license: multiple license files found"

/-- Base names of guessable license files (license.go lines 36-41). -/
def fileNames : List Str := [str "copying", str "copyleft", str "license", str "unlicense"]

/-- License file extensions (license.go lines 46-51). -/
def fileExtensions : List Str := [str "", str ".md", str ".rst", str ".txt"]

/-- `DefaultLicenseFiles`, generated in `init` (license.go lines 70-79) as every
base name combined with every extension, in that nesting order. -/
def DefaultLicenseFiles : List Str :=
  fileNames.flatMap (fun file => fileExtensions.map (fun ext => file ++ ext))

/-- Membership in `fileTable` (license.go lines 63, 77): the keys of the table
are exactly the entries of `DefaultLicenseFiles`. -/
def fileTable (name : Str) : Bool := DefaultLicenseFiles.contains name

/-- `KnownLicenses`, initialized in `init` (license.go lines 82-96).  Note that
`LicenseISC` is absent from this list in the source. -/
def KnownLicenses : List Str :=
  [LicenseMIT, LicenseNewBSD, LicenseFreeBSD, LicenseApache20, LicenseMPL20,
   LicenseGPL20, LicenseGPL30, LicenseLGPL21, LicenseLGPL30, LicenseAGPL30,
   LicenseCDDL10, LicenseEPL10, LicenseUnlicense]

/-- Membership in `licenseTable` (license.go lines 97-100): the keys of the
table are exactly the entries of `KnownLicenses`. -/
def licenseTable (t : Str) : Bool := KnownLicenses.contains t

/-- The `License` struct (license.go lines 135-139). -/
structure License where
  «Type» : Str
  Text : Str
  File : Str
deriving DecidableEq

/-- `Recognized` (license.go lines 183-186): set membership of the license type
in the license table. -/
def Recognized (l : License) : Bool := licenseTable l.«Type»

/-- `ioutil.ReadDir` is the filesystem collaborator: it yields either an error
or the list of entry names of the directory. -/
abbrev ReadDir := Str → Except Str (List Str)

/-- `LicenseFilesInDir` (license.go lines 117-132): on a read error the error is
wrapped as `error reading dir: ...`; otherwise the entries whose lowercased
name is in the file table are kept, in order. -/
def LicenseFilesInDir (readDir : ReadDir) (dir : Str) : Except Str (List Str) :=
  match readDir dir with
  | .error err => .error (str "error reading dir: " ++ err)
  | .ok files => .ok (files.filter (fun fi => fileTable (toLowerStr fi)))

/-- `filepath.Join(dir, name)` for a cleaned directory path and a simple file
name: the two joined by a path separator. -/
def filepathJoin (dir name : Str) : Str := dir ++ str "/" ++ name

/-- `GuessFile` (license.go lines 190-205), in state-passing form: the first
component is the receiver after the call (`l.File` is set on a unique match),
the second is the returned error (`none` for `nil`). -/
def GuessFile (readDir : ReadDir) (l : License) (dir : Str) : License × Option Str :=
  match LicenseFilesInDir readDir dir with
  | .error err => (l, some err)
  | .ok files =>
    match files with
    | [] => (l, some ErrNoLicenseFile)
    | [f] => ({ l with File := filepathJoin dir f }, none)
    | _ => (l, some ErrMultipleLicenses)

/- The signature phrases of the `GuessType` cascade (license.go lines 233-288),
with Go string concatenations joined. -/

/-- MIT signature phrase (license.go lines 234-235). -/
def sigMIT : Str :=
  str "permission is hereby granted, free of charge, to any person obtaining a copy of this software"

/-- ISC signature phrase (license.go lines 238-239). -/
def sigISC : Str :=
  str "permission to use, copy, modify, and/or distribute this software for any"

/-- First Apache-2.0 signature phrase (license.go line 242). -/
def sigApacheHeader : Str := str "apache license version 2.0, january 2004"

/-- Second Apache-2.0 signature phrase (license.go line 243). -/
def sigApacheUrl : Str := str "http://www.apache.org/licenses/license-2.0"

/-- GPL-2.0 signature phrase (license.go line 246). -/
def sigGPL20 : Str := str "gnu general public license version 2, june 1991"

/-- GPL-3.0 signature phrase (license.go line 249). -/
def sigGPL30 : Str := str "gnu general public license version 3, 29 june 2007"

/-- LGPL-2.1 signature phrase (license.go lines 252-253). -/
def sigLGPL21 : Str := str "gnu lesser general public license version 2.1, february 1999"

/-- LGPL-3.0 signature phrase (license.go lines 256-257). -/
def sigLGPL30 : Str := str "gnu lesser general public license version 3, 29 june 2007"

/-- AGPL-3.0 signature phrase (license.go lines 260-261). -/
def sigAGPL30 : Str := str "gnu affero general public license version 3, 19 november 2007"

/-- First MPL-2.0 signature phrase (license.go line 264). -/
def sigMPLName : Str := str "mozilla public license"

/-- Second MPL-2.0 signature phrase (license.go line 264). -/
def sigMPLVersion : Str := str "version 2.0"

/-- BSD-family signature phrase (license.go line 267). -/
def sigBSD : Str := str "redistribution and use in source and binary forms"

/-- NewBSD sub-branch phrase (license.go line 269). -/
def sigNeither : Str := str "neither the name of"

/-- CDDL-1.0 signature phrase (license.go lines 275-276). -/
def sigCDDL10 : Str := str "common development and distribution license (cddl) version 1.0"

/-- EPL-1.0 signature phrase (license.go line 279). -/
def sigEPL10 : Str := str "eclipse public license - v 1.0"

/-- Unlicense signature phrase (license.go lines 282-283). -/
def sigUnlicense : Str := str "this is free and unencumbered software released into the public domain"

/-- The switch of `GuessType` (license.go lines 233-288) as a function of the
normalized text: the ordered cascade of signature checks, first match wins,
with the NewBSD/FreeBSD sub-switch nested under the BSD rule; `none` when no
rule matches (the default branch). -/
def cascade (comp : Str) : Option Str :=
  if scan comp sigMIT then some LicenseMIT
  else if scan comp sigISC then some LicenseISC
  else if scan comp sigApacheHeader || scan comp sigApacheUrl then some LicenseApache20
  else if scan comp sigGPL20 then some LicenseGPL20
  else if scan comp sigGPL30 then some LicenseGPL30
  else if scan comp sigLGPL21 then some LicenseLGPL21
  else if scan comp sigLGPL30 then some LicenseLGPL30
  else if scan comp sigAGPL30 then some LicenseAGPL30
  else if scan comp sigMPLName && scan comp sigMPLVersion then some LicenseMPL20
  else if scan comp sigBSD then
    if scan comp sigNeither then some LicenseNewBSD else some LicenseFreeBSD
  else if scan comp sigCDDL10 then some LicenseCDDL10
  else if scan comp sigEPL10 then some LicenseEPL10
  else if scan comp sigUnlicense then some LicenseUnlicense
  else none

/-- `GuessType` (license.go lines 218-291), in state-passing form: the first
component is the receiver after the call, the second the returned error
(`none` for `nil`).  The normalized copy of the text is fed to the cascade;
a matching branch assigns the chosen identifier to `l.Type` and returns `nil`,
the default branch leaves the receiver untouched and returns
`ErrUnrecognizedLicense`. -/
def GuessType (l : License) : License × Option Str :=
  match cascade (normalizeText l.Text) with
  | some t => ({ l with «Type» := t }, none)
  | none => (l, some ErrUnrecognizedLicense)

/-- Variant construction for the line-ending invariance property: every LF in
the text is replaced by a CRLF pair. -/
def lfToCrlf : Str → Str
  | [] => []
  | c :: r => if c = 10 then 13 :: 10 :: lfToCrlf r else c :: lfToCrlf r

/-- Variant construction for the blank-line invariance property: every LF in
the text is replaced by `k + 1` LF characters, i.e. `k` extra blank lines are
inserted at every line break. -/
def insertBlankLines (k : Nat) : Str → Str
  | [] => []
  | c :: r =>
    if c = 10 then List.replicate (k + 1) 10 ++ insertBlankLines k r
    else c :: insertBlankLines k r

/-- Go `strings.ToUpper`, ASCII fragment, applied to a whole text. -/
def toUpperStr (s : Str) : Str := s.map goToUpper

/-- Relates the newline replacement of a CRLF text to that of the LF original:
the second list is obtained from the first by deleting carriage returns that
stand directly before a space. -/
inductive RelCR : Str → Str → Prop
  | nil : RelCR [] []
  | cons (c : Nat) {xs ys : Str} : RelCR xs ys → RelCR (c :: xs) (c :: ys)
  | drop {xs ys : Str} : RelCR xs ys → RelCR (13 :: 32 :: xs) (32 :: ys)

/-- Relates the newline replacement of a text with duplicated line breaks to
that of the original: the second list is obtained from the first by shortening
runs of spaces. -/
inductive RelSP : Str → Str → Prop
  | nil : RelSP [] []
  | cons (c : Nat) {xs ys : Str} : RelSP xs ys → RelSP (c :: xs) (c :: ys)
  | pad {xs ys : Str} : RelSP xs (32 :: ys) → RelSP (32 :: xs) (32 :: ys)

/-- The candidate file name set exactly as the amended claim describes it: the
cross product of the four base names with the four extensions. -/
def candidateFileNames : List Str :=
  [str "copying", str "copying.md", str "copying.rst", str "copying.txt",
   str "copyleft", str "copyleft.md", str "copyleft.rst", str "copyleft.txt",
   str "license", str "license.md", str "license.rst", str "license.txt",
   str "unlicense", str "unlicense.md", str "unlicense.rst", str "unlicense.txt"]

/- Equation lemmas for the newline replacement. -/

theorem rn_cons_lf (r : Str) : replaceNewlines (10 :: r) = 32 :: replaceNewlines r := by
  cases r <;> simp [replaceNewlines]

theorem rn_crlf (r : Str) : replaceNewlines (13 :: 10 :: r) = 32 :: replaceNewlines r := by
  simp [replaceNewlines]

theorem rn_cr_cons (d : Nat) (r : Str) (hd : d ≠ 10) :
    replaceNewlines (13 :: d :: r) = 13 :: replaceNewlines (d :: r) := by
  simp [replaceNewlines, hd]

theorem rn_other (c : Nat) (r : Str) (h10 : c ≠ 10) (h13 : c ≠ 13) :
    replaceNewlines (c :: r) = c :: replaceNewlines r := by
  cases r <;> simp [replaceNewlines, h10, h13]

theorem rn_rep10 (k : Nat) (X : Str) :
    replaceNewlines (List.replicate k 10 ++ X) = List.replicate k 32 ++ replaceNewlines X := by
  induction k with
  | zero => simp
  | succ n ih => simp [List.replicate_succ, rn_cons_lf, ih]

/- Reflexivity of the two auxiliary relations. -/

theorem relCR_refl (X : Str) : RelCR X X := by
  induction X with
  | nil => exact RelCR.nil
  | cons c r ih => exact RelCR.cons c ih

theorem relSP_refl (X : Str) : RelSP X X := by
  induction X with
  | nil => exact RelSP.nil
  | cons c r ih => exact RelSP.cons c ih

/-- The newline replacement of a CRLF variant is `RelCR`-related to the
newline replacement of the original text. -/
theorem relCR_rn_lf : ∀ S : Str, RelCR (replaceNewlines (lfToCrlf S)) (replaceNewlines S)
  | [] => RelCR.nil
  | [c] => by
    by_cases h10 : c = 10
    · subst h10
      rw [show lfToCrlf [10] = [13, 10] from rfl]
      rw [show replaceNewlines [13, 10] = [32] from rfl,
          show replaceNewlines [10] = [32] from rfl]
      exact RelCR.cons 32 RelCR.nil
    · rw [show lfToCrlf [c] = [c] from by simp [lfToCrlf, h10]]
      exact relCR_refl _
  | c :: d :: r => by
    by_cases h10 : c = 10
    · subst h10
      have ih := relCR_rn_lf (d :: r)
      rw [show lfToCrlf (10 :: d :: r) = 13 :: 10 :: lfToCrlf (d :: r) from by simp [lfToCrlf]]
      rw [rn_crlf, rn_cons_lf]
      exact RelCR.cons 32 ih
    · by_cases h13 : c = 13
      · subst h13
        by_cases hd : d = 10
        · subst hd
          have ih := relCR_rn_lf r
          rw [show lfToCrlf (13 :: 10 :: r) = 13 :: 13 :: 10 :: lfToCrlf r from by
                simp [lfToCrlf]]
          rw [rn_cr_cons 13 (10 :: lfToCrlf r) (by decide), rn_crlf, rn_crlf]
          exact RelCR.drop ih
        · have ih := relCR_rn_lf (d :: r)
          rw [show lfToCrlf (13 :: d :: r) = 13 :: lfToCrlf (d :: r) from by
                simp [lfToCrlf]]
          rw [show lfToCrlf (d :: r) = d :: lfToCrlf r from by simp [lfToCrlf, hd]]
          rw [rn_cr_cons d (lfToCrlf r) hd, rn_cr_cons d r hd]
          rw [show lfToCrlf (d :: r) = d :: lfToCrlf r from by simp [lfToCrlf, hd]] at ih
          exact RelCR.cons 13 ih
      · have ih := relCR_rn_lf (d :: r)
        rw [show lfToCrlf (c :: d :: r) = c :: lfToCrlf (d :: r) from by simp [lfToCrlf, h10]]
        rw [rn_other c _ h10 h13, rn_other c _ h10 h13]
        exact RelCR.cons c ih

/-- Padding a `RelSP` pair with a run of spaces on the left. -/
theorem relSP_padRep (k : Nat) {xs ys : Str} (h : RelSP xs ys) :
    RelSP (List.replicate (k + 1) 32 ++ xs) (32 :: ys) := by
  induction k with
  | zero => simpa using RelSP.cons 32 h
  | succ n ih =>
    rw [List.replicate_succ, List.cons_append]
    exact RelSP.pad ih

/-- The newline replacement of a blank-line variant is `RelSP`-related to the
newline replacement of the original text. -/
theorem relSP_rn_ins (k : Nat) : ∀ S : Str,
    RelSP (replaceNewlines (insertBlankLines k S)) (replaceNewlines S)
  | [] => RelSP.nil
  | [c] => by
    by_cases h10 : c = 10
    · subst h10
      rw [show insertBlankLines k [10] = List.replicate (k + 1) 10 ++ ([] : Str) from by
            simp [insertBlankLines]]
      rw [rn_rep10]
      exact relSP_padRep k RelSP.nil
    · rw [show insertBlankLines k [c] = [c] from by simp [insertBlankLines, h10]]
      exact relSP_refl _
  | c :: d :: r => by
    by_cases h10 : c = 10
    · subst h10
      have ih := relSP_rn_ins k (d :: r)
      rw [show insertBlankLines k (10 :: d :: r)
            = List.replicate (k + 1) 10 ++ insertBlankLines k (d :: r) from by
            simp [insertBlankLines]]
      rw [rn_rep10, rn_cons_lf]
      exact relSP_padRep k ih
    · by_cases h13 : c = 13
      · subst h13
        by_cases hd : d = 10
        · subst hd
          have ih := relSP_rn_ins k r
          rw [show insertBlankLines k (13 :: 10 :: r)
                = 13 :: 10 :: (List.replicate k 10 ++ insertBlankLines k r) from by
                simp [insertBlankLines, List.replicate_succ]]
          rw [rn_crlf, rn_crlf, rn_rep10]
          have h2 := relSP_padRep k ih
          rw [List.replicate_succ, List.cons_append] at h2
          exact h2
        · have ih := relSP_rn_ins k (d :: r)
          rw [show insertBlankLines k (13 :: d :: r) = 13 :: insertBlankLines k (d :: r) from by
                simp [insertBlankLines]]
          rw [show insertBlankLines k (d :: r) = d :: insertBlankLines k r from by
                simp [insertBlankLines, hd]]
          rw [rn_cr_cons d (insertBlankLines k r) hd, rn_cr_cons d r hd]
          rw [show insertBlankLines k (d :: r) = d :: insertBlankLines k r from by
                simp [insertBlankLines, hd]] at ih
          exact RelSP.cons 13 ih
      · have ih := relSP_rn_ins k (d :: r)
        rw [show insertBlankLines k (c :: d :: r) = c :: insertBlankLines k (d :: r) from by
              simp [insertBlankLines, h10]]
        rw [rn_other c _ h10 h13, rn_other c _ h10 h13]
        exact RelSP.cons c ih

/- The whitespace collapsing respects the two relations. -/

theorem collapseAux_congr_relCR {X Y : Str} (h : RelCR X Y) :
    ∀ p, collapseAux p X = collapseAux p Y := by
  have s13 : isSpace 13 = true := rfl
  have s32 : isSpace 32 = true := rfl
  induction h with
  | nil => intro p; rfl
  | cons c h ih =>
    intro p
    cases hc : isSpace p && isSpace c <;> simp [collapseAux, hc, ih c, ih 32]
  | drop h ih =>
    intro p
    cases hp : isSpace p <;> simp [collapseAux, hp, s13, s32, ih 32]

theorem collapseAux_congr_relSP {X Y : Str} (h : RelSP X Y) :
    ∀ p, collapseAux p X = collapseAux p Y := by
  have s32 : isSpace 32 = true := rfl
  induction h with
  | nil => intro p; rfl
  | cons c h ih =>
    intro p
    cases hc : isSpace p && isSpace c <;> simp [collapseAux, hc, ih c, ih 32]
  | pad h ih =>
    intro p
    have key : collapseAux 32 _ = collapseAux 32 _ := ih 32
    cases hp : isSpace p <;> simp [collapseAux, hp, s32] <;>
      simpa [collapseAux, s32] using ih 32

theorem collapseSpaces_congr_relCR {X Y : Str} (h : RelCR X Y) :
    collapseSpaces X = collapseSpaces Y := by
  have s13 : isSpace 13 = true := rfl
  have s32 : isSpace 32 = true := rfl
  cases h with
  | nil => rfl
  | cons c h' => simpa [collapseSpaces] using collapseAux_congr_relCR h' c
  | drop h' =>
    simp only [collapseSpaces]
    simpa [collapseAux, s13, s32] using collapseAux_congr_relCR h' 32

theorem collapseSpaces_congr_relSP {X Y : Str} (h : RelSP X Y) :
    collapseSpaces X = collapseSpaces Y := by
  have s32 : isSpace 32 = true := rfl
  cases h with
  | nil => rfl
  | cons c h' => simpa [collapseSpaces] using collapseAux_congr_relSP h' c
  | pad h' =>
    simp only [collapseSpaces]
    simpa [collapseAux, s32] using collapseAux_congr_relSP h' 32

/- The lowercase map commutes with the two text variations. -/

theorem goToLower_ne_lf {c : Nat} (h : c ≠ 10) : goToLower c ≠ 10 := by
  simp only [goToLower]
  split_ifs <;> omega

theorem toLowerStr_lfToCrlf (S : Str) : toLowerStr (lfToCrlf S) = lfToCrlf (toLowerStr S) := by
  have g10 : goToLower 10 = 10 := rfl
  induction S with
  | nil => rfl
  | cons c r ih =>
    by_cases h10 : c = 10
    · subst h10
      have g13 : goToLower 13 = 13 := rfl
      simp only [toLowerStr] at ih ⊢
      simp [lfToCrlf, g10, g13, ih]
    · simp only [toLowerStr, List.map_cons] at *
      rw [show lfToCrlf (c :: r) = c :: lfToCrlf r from by simp [lfToCrlf, h10]]
      rw [show lfToCrlf (goToLower c :: List.map goToLower r)
            = goToLower c :: lfToCrlf (List.map goToLower r) from by
            simp [lfToCrlf, goToLower_ne_lf h10]]
      simp [ih]

theorem toLowerStr_ins (k : Nat) (S : Str) :
    toLowerStr (insertBlankLines k S) = insertBlankLines k (toLowerStr S) := by
  have g10 : goToLower 10 = 10 := rfl
  induction S with
  | nil => rfl
  | cons c r ih =>
    by_cases h10 : c = 10
    · subst h10
      simp only [toLowerStr] at ih ⊢
      simp [insertBlankLines, g10, ih, List.map_append, List.map_replicate]
    · simp only [toLowerStr, List.map_cons] at *
      rw [show insertBlankLines k (c :: r) = c :: insertBlankLines k r from by
            simp [insertBlankLines, h10]]
      rw [show insertBlankLines k (goToLower c :: List.map goToLower r)
            = goToLower c :: insertBlankLines k (List.map goToLower r) from by
            simp [insertBlankLines, goToLower_ne_lf h10]]
      simp [ih]

theorem goToLower_goToUpper (c : Nat) : goToLower (goToUpper c) = goToLower c := by
  simp only [goToLower, goToUpper]
  split_ifs <;> omega

theorem toLowerStr_toUpperStr (S : Str) : toLowerStr (toUpperStr S) = toLowerStr S := by
  induction S with
  | nil => rfl
  | cons c r ih =>
    simp only [toLowerStr, toUpperStr, List.map_cons] at *
    rw [goToLower_goToUpper, ih]

/- Normalization is invariant under the three text variations. -/

theorem normalizeText_lfToCrlf (S : Str) : normalizeText (lfToCrlf S) = normalizeText S := by
  unfold normalizeText
  rw [toLowerStr_lfToCrlf]
  exact collapseSpaces_congr_relCR (relCR_rn_lf (toLowerStr S))

theorem normalizeText_ins (k : Nat) (S : Str) :
    normalizeText (insertBlankLines k S) = normalizeText S := by
  unfold normalizeText
  rw [toLowerStr_ins]
  exact collapseSpaces_congr_relSP (relSP_rn_ins k (toLowerStr S))

theorem normalizeText_toUpperStr (S : Str) : normalizeText (toUpperStr S) = normalizeText S := by
  unfold normalizeText
  rw [toLowerStr_toUpperStr]

/-- Classification depends on the text only through its normalized form: two
records with the same type and normalization-equal texts classify alike. -/
theorem GuessType_congr {t₁ t₂ : Str} (l : License) (h : normalizeText t₁ = normalizeText t₂) :
    (GuessType { l with Text := t₁ }).1.«Type» = (GuessType { l with Text := t₂ }).1.«Type»
    ∧ (GuessType { l with Text := t₁ }).2 = (GuessType { l with Text := t₂ }).2 := by
  simp only [GuessType]
  rw [h]
  cases hc : cascade (normalizeText t₂) <;> simp

/-- C1: the cascade is ordered with first-match-wins: whenever the normalized
text contains the MIT signature phrase, classification sets the type to MIT and
succeeds, regardless of which later signatures the text also contains. -/
theorem GuessType_mit_first (l : License)
    (h : scan (normalizeText l.Text) sigMIT = true) :
    GuessType l = ({ l with «Type» := LicenseMIT }, none) := by
  have hc : cascade (normalizeText l.Text) = some LicenseMIT := by simp [cascade, h]
  simp [GuessType, hc]

/-- Witness for C1: a text containing the MIT phrase and also the ISC phrase of
the later rule is classified MIT. -/
theorem GuessType_mit_first_witness :
    scan (normalizeText (str "Permission is hereby granted, free of charge, to any person obtaining a copy of this software and associated documentation files.\nPermission to use, copy, modify, and/or distribute this software for any purpose is also granted.")) sigISC = true
    ∧ GuessType ⟨[], str "Permission is hereby granted, free of charge, to any person obtaining a copy of this software and associated documentation files.\nPermission to use, copy, modify, and/or distribute this software for any purpose is also granted.", []⟩
      = (⟨LicenseMIT, str "Permission is hereby granted, free of charge, to any person obtaining a copy of this software and associated documentation files.\nPermission to use, copy, modify, and/or distribute this software for any purpose is also granted.", []⟩, none) :=
  ⟨by decide, GuessType_mit_first ⟨[], str "Permission is hereby granted, free of charge, to any person obtaining a copy of this software and associated documentation files.\nPermission to use, copy, modify, and/or distribute this software for any purpose is also granted.", []⟩ (by decide)⟩

/-- C2: the source's `init` omits `LicenseISC` from `KnownLicenses`, so a
record whose type is ISC — including the very record `GuessType` produces from
ISC license text — is not `Recognized`, although every other identifier of the
enumeration is; an arbitrary string such as "None" is not recognized either. -/
theorem Recognized_known_set_gap :
    GuessType ⟨[], sigISC, []⟩ = (⟨LicenseISC, sigISC, []⟩, none)
    ∧ Recognized ⟨LicenseISC, sigISC, []⟩ = false
    ∧ KnownLicenses.all (fun t => Recognized ⟨t, [], []⟩) = true
    ∧ Recognized ⟨str "None", [], []⟩ = false := by
  exact ⟨by decide, by decide, by decide, by decide⟩

/-- C3 counterexample: the name "COPYRIGHT.md", an element of the claimed
20-element cross product, is ignored by the directory scan because the base
name `copyright` is not in the source's `fileNames`. -/
theorem LicenseFilesInDir_copyright_ignored :
    LicenseFilesInDir (fun _ => Except.ok [str "COPYRIGHT.md"]) (str "pkg")
      = Except.ok ([] : List Str)
    ∧ fileTable (toLowerStr (str "COPYRIGHT.md")) = false := by
  exact ⟨rfl, by decide⟩

/-- C3 amended: the accepted names are exactly the 16-element cross product of
the base names copying, copyleft, license, unlicense with the extensions none,
.md, .rst, .txt; the scan keeps exactly the entries whose lowercased name is in
that product. -/
theorem LicenseFilesInDir_cross_product (rd : ReadDir) (dir : Str) (entries : List Str)
    (h : rd dir = Except.ok entries) :
    DefaultLicenseFiles = candidateFileNames
    ∧ LicenseFilesInDir rd dir
        = Except.ok (entries.filter (fun fi => candidateFileNames.contains (toLowerStr fi))) := by
  have hd : DefaultLicenseFiles = candidateFileNames := by decide
  refine ⟨hd, ?_⟩
  simp only [LicenseFilesInDir, h, fileTable, hd]

/-- Witness for C3 amended: a directory listing with one exact-case match, one
non-candidate name and one case-folded match. -/
theorem LicenseFilesInDir_cross_product_witness :
    DefaultLicenseFiles = candidateFileNames
    ∧ LicenseFilesInDir (fun _ => Except.ok [str "LICENSE", str "main.go", str "Copying.TXT"]) (str "pkg")
        = Except.ok (([str "LICENSE", str "main.go", str "Copying.TXT"] : List Str).filter
            (fun fi => candidateFileNames.contains (toLowerStr fi))) :=
  LicenseFilesInDir_cross_product _ _ _ rfl

/-- C4: on text whose normalized form matches none of the first nine rules but
contains the BSD phrase, classification returns NewBSD exactly when the text
also contains "neither the name of", and FreeBSD otherwise. -/
theorem GuessType_bsd_subbranch (l : License)
    (h1 : scan (normalizeText l.Text) sigMIT = false)
    (h2 : scan (normalizeText l.Text) sigISC = false)
    (h3 : (scan (normalizeText l.Text) sigApacheHeader
            || scan (normalizeText l.Text) sigApacheUrl) = false)
    (h4 : scan (normalizeText l.Text) sigGPL20 = false)
    (h5 : scan (normalizeText l.Text) sigGPL30 = false)
    (h6 : scan (normalizeText l.Text) sigLGPL21 = false)
    (h7 : scan (normalizeText l.Text) sigLGPL30 = false)
    (h8 : scan (normalizeText l.Text) sigAGPL30 = false)
    (h9 : (scan (normalizeText l.Text) sigMPLName
            && scan (normalizeText l.Text) sigMPLVersion) = false)
    (h10 : scan (normalizeText l.Text) sigBSD = true) :
    (scan (normalizeText l.Text) sigNeither = true →
        GuessType l = ({ l with «Type» := LicenseNewBSD }, none))
    ∧ (scan (normalizeText l.Text) sigNeither = false →
        GuessType l = ({ l with «Type» := LicenseFreeBSD }, none)) := by
  constructor <;> intro hn
  · have hc : cascade (normalizeText l.Text) = some LicenseNewBSD := by
      simp [cascade, h1, h2, h3, h4, h5, h6, h7, h8, h9, h10, hn]
    simp [GuessType, hc]
  · have hc : cascade (normalizeText l.Text) = some LicenseFreeBSD := by
      simp [cascade, h1, h2, h3, h4, h5, h6, h7, h8, h9, h10, hn]
    simp [GuessType, hc]

/-- Witness for C4: BSD text with the "neither the name of" clause classifies
as NewBSD, the same text without the clause as FreeBSD. -/
theorem GuessType_bsd_subbranch_witness :
    GuessType ⟨[], str "Redistribution and use in source and binary forms, with or without modification, are permitted provided that these conditions are met:\nNeither the name of the copyright holder nor the names of its contributors may be used.", []⟩
      = (⟨LicenseNewBSD, str "Redistribution and use in source and binary forms, with or without modification, are permitted provided that these conditions are met:\nNeither the name of the copyright holder nor the names of its contributors may be used.", []⟩, none)
    ∧ GuessType ⟨[], str "Redistribution and use in source and binary forms, with or without modification, are permitted.", []⟩
      = (⟨LicenseFreeBSD, str "Redistribution and use in source and binary forms, with or without modification, are permitted.", []⟩, none) :=
  ⟨(GuessType_bsd_subbranch ⟨[], str "Redistribution and use in source and binary forms, with or without modification, are permitted provided that these conditions are met:\nNeither the name of the copyright holder nor the names of its contributors may be used.", []⟩
      (by decide) (by decide) (by decide) (by decide) (by decide) (by decide) (by decide)
      (by decide) (by decide) (by decide)).1 (by decide),
   (GuessType_bsd_subbranch ⟨[], str "Redistribution and use in source and binary forms, with or without modification, are permitted.", []⟩
      (by decide) (by decide) (by decide) (by decide) (by decide) (by decide) (by decide)
      (by decide) (by decide) (by decide)).2 (by decide)⟩

/-- C5: given a readable directory listing, the file locator fails with
`ErrNoLicenseFile` when no entry matches the candidate set, stores the joined
path of the unique matching entry when exactly one matches, and fails with
`ErrMultipleLicenses` when two or more match. -/
theorem GuessFile_trichotomy (rd : ReadDir) (l : License) (dir : Str) (entries : List Str)
    (h : rd dir = Except.ok entries) :
    (entries.filter (fun fi => fileTable (toLowerStr fi)) = [] →
        GuessFile rd l dir = (l, some ErrNoLicenseFile))
    ∧ (∀ f, entries.filter (fun fi => fileTable (toLowerStr fi)) = [f] →
        GuessFile rd l dir = ({ l with File := filepathJoin dir f }, none))
    ∧ (∀ f₁ f₂ rest, entries.filter (fun fi => fileTable (toLowerStr fi)) = f₁ :: f₂ :: rest →
        GuessFile rd l dir = (l, some ErrMultipleLicenses)) := by
  refine ⟨?_, ?_, ?_⟩
  · intro hm
    simp [GuessFile, LicenseFilesInDir, h, hm]
  · intro f hm
    simp [GuessFile, LicenseFilesInDir, h, hm]
  · intro f₁ f₂ rest hm
    simp [GuessFile, LicenseFilesInDir, h, hm]

/-- Witness for C5: a listing with one candidate among other files resolves to
the joined path of that candidate. -/
theorem GuessFile_trichotomy_witness :
    GuessFile (fun _ => Except.ok [str "README.md", str "LICENSE.txt"]) ⟨[], [], []⟩ (str "pkg")
      = (⟨[], [], filepathJoin (str "pkg") (str "LICENSE.txt")⟩, none) :=
  (GuessFile_trichotomy _ _ _ _ rfl).2.1 (str "LICENSE.txt") (by decide)

/-- C6: classification is invariant under replacing LF line endings by CRLF and
under inserting extra blank lines: the classified type and the returned error
are unchanged. -/
theorem GuessType_newline_blankline_invariant (l : License) (k : Nat) :
    ((GuessType { l with Text := lfToCrlf l.Text }).1.«Type» = (GuessType l).1.«Type»
      ∧ (GuessType { l with Text := lfToCrlf l.Text }).2 = (GuessType l).2)
    ∧ ((GuessType { l with Text := insertBlankLines k l.Text }).1.«Type» = (GuessType l).1.«Type»
      ∧ (GuessType { l with Text := insertBlankLines k l.Text }).2 = (GuessType l).2) :=
  ⟨GuessType_congr l (normalizeText_lfToCrlf l.Text),
   GuessType_congr l (normalizeText_ins k l.Text)⟩

/-- C7: classification is case-insensitive: uppercasing the text changes
neither the classified type nor the returned error. -/
theorem GuessType_case_insensitive (l : License) :
    (GuessType { l with Text := toUpperStr l.Text }).1.«Type» = (GuessType l).1.«Type»
    ∧ (GuessType { l with Text := toUpperStr l.Text }).2 = (GuessType l).2 :=
  GuessType_congr l (normalizeText_toUpperStr l.Text)

/-- C8: when the normalized text matches no rule of the cascade, classification
fails with `ErrUnrecognizedLicense` and returns no identifier. -/
theorem GuessType_unmatched_error (l : License)
    (h1 : scan (normalizeText l.Text) sigMIT = false)
    (h2 : scan (normalizeText l.Text) sigISC = false)
    (h3 : (scan (normalizeText l.Text) sigApacheHeader
            || scan (normalizeText l.Text) sigApacheUrl) = false)
    (h4 : scan (normalizeText l.Text) sigGPL20 = false)
    (h5 : scan (normalizeText l.Text) sigGPL30 = false)
    (h6 : scan (normalizeText l.Text) sigLGPL21 = false)
    (h7 : scan (normalizeText l.Text) sigLGPL30 = false)
    (h8 : scan (normalizeText l.Text) sigAGPL30 = false)
    (h9 : (scan (normalizeText l.Text) sigMPLName
            && scan (normalizeText l.Text) sigMPLVersion) = false)
    (h10 : scan (normalizeText l.Text) sigBSD = false)
    (h11 : scan (normalizeText l.Text) sigCDDL10 = false)
    (h12 : scan (normalizeText l.Text) sigEPL10 = false)
    (h13 : scan (normalizeText l.Text) sigUnlicense = false) :
    GuessType l = (l, some ErrUnrecognizedLicense) := by
  have hc : cascade (normalizeText l.Text) = none := by
    simp [cascade, h1, h2, h3, h4, h5, h6, h7, h8, h9, h10, h11, h12, h13]
  simp [GuessType, hc]

/-- Witness for C8: the prose "No license data" matches no rule and fails with
the unrecognized-license error. -/
theorem GuessType_unmatched_error_witness :
    GuessType ⟨[], str "No license data", []⟩
      = (⟨[], str "No license data", []⟩, some ErrUnrecognizedLicense) :=
  GuessType_unmatched_error ⟨[], str "No license data", []⟩
    (by decide) (by decide) (by decide) (by decide) (by decide) (by decide) (by decide)
    (by decide) (by decide) (by decide) (by decide) (by decide) (by decide)

/-- C9 counterexample: a filesystem error is not propagated verbatim — the
locator returns it wrapped with the prefix "error reading dir: ", an error
different from the original filesystem error. -/
theorem GuessFile_error_not_verbatim :
    GuessFile (fun _ => Except.error (str "open missing: no such file or directory"))
        ⟨[], [], []⟩ (str "missing")
      = (⟨[], [], []⟩, some (str "error reading dir: open missing: no such file or directory"))
    ∧ (GuessFile (fun _ => Except.error (str "open missing: no such file or directory"))
        ⟨[], [], []⟩ (str "missing")).2
      ≠ some (str "open missing: no such file or directory") := by
  exact ⟨rfl, by decide⟩

/-- C9 amended: when the directory read fails, the locator fails with the
filesystem error wrapped as "error reading dir: ...", an error distinct from
`ErrNoLicenseFile` and `ErrMultipleLicenses`, and the record is unchanged. -/
theorem GuessFile_error_wrapped (rd : ReadDir) (l : License) (dir e : Str)
    (h : rd dir = Except.error e) :
    GuessFile rd l dir = (l, some (str "error reading dir: " ++ e))
    ∧ str "error reading dir: " ++ e ≠ ErrNoLicenseFile
    ∧ str "error reading dir: " ++ e ≠ ErrMultipleLicenses := by
  refine ⟨by simp [GuessFile, LicenseFilesInDir, h], ?_, ?_⟩
  · intro hc
    have h1 : (str "error reading dir: " ++ e).head? = some 101 := rfl
    rw [hc] at h1
    exact absurd h1 (by decide)
  · intro hc
    have h1 : (str "error reading dir: " ++ e).head? = some 101 := rfl
    rw [hc] at h1
    exact absurd h1 (by decide)

/-- Witness for C9 amended: a concrete failing directory read. -/
theorem GuessFile_error_wrapped_witness :
    GuessFile (fun _ => Except.error (str "not a directory")) ⟨[], [], []⟩ (str "f")
      = (⟨[], [], []⟩, some (str "error reading dir: not a directory"))
    ∧ str "error reading dir: " ++ str "not a directory" ≠ ErrNoLicenseFile
    ∧ str "error reading dir: " ++ str "not a directory" ≠ ErrMultipleLicenses :=
  GuessFile_error_wrapped _ _ _ _ rfl

/-- C10: classification never modifies the text or file fields, and when it
fails with the unrecognized-license error the record is exactly as it was. -/
theorem GuessType_frame_preserving (l : License) :
    (GuessType l).1.Text = l.Text ∧ (GuessType l).1.File = l.File
    ∧ ((GuessType l).2 = some ErrUnrecognizedLicense → (GuessType l).1 = l) := by
  simp only [GuessType]
  cases hc : cascade (normalizeText l.Text) <;> simp

/-- Witness for C10: a failed classification leaves a concrete record exactly
unchanged. -/
theorem GuessType_frame_preserving_witness :
    (GuessType ⟨str "MyLicense", str "Some license text.", str "f.txt"⟩).1
      = ⟨str "MyLicense", str "Some license text.", str "f.txt"⟩ :=
  (GuessType_frame_preserving ⟨str "MyLicense", str "Some license text.", str "f.txt"⟩).2.2
    (by decide)

end GoLicense
